import Mathlib

/-!
# Verification of `generate_metronome_sounds.py`

A shallow embedding of the metronome-sound generator: a sine-wave
synthesizer (`generate_sine_wave`) producing 16-bit little-endian PCM
bytes, and a WAV container writer (`create_wav_file`, which delegates the
serialization to the Python standard `wave` module).

Modelling conventions:
* Python float arithmetic is idealized as exact rational arithmetic (ℚ).
* `math.sin(2 * math.pi * x)` is abstracted as an uninterpreted oscillator
  `osc : ℚ → ℚ` applied to the cycle count `x` (π is irrational, so the
  argument is tracked in units of full cycles); the only fact ever assumed
  about it is the bound `|osc x| ≤ 1` enjoyed by the sine.
* Python `int(x)` on a number is truncation toward zero.
* Python `bytes` values are lists of byte values (`List ℕ`, entries < 256).
-/

set_option autoImplicit false

namespace Metronome

/-- Python `int(q)` applied to a number: truncation toward zero
(floor for nonnegative arguments, ceiling for negative ones). -/
def truncTowardZero (q : ℚ) : ℤ :=
  if 0 ≤ q then ⌊q⌋ else ⌈q⌉

/-- Line 24: `num_samples = int(sample_rate * duration)`. -/
def numSamples (sampleRate duration : ℚ) : ℤ :=
  truncTowardZero (sampleRate * duration)

/-- Line 34: `fade_samples = int(sample_rate * 0.005)` (5 ms fade). -/
def fadeSamples (sampleRate : ℚ) : ℤ :=
  truncTowardZero (sampleRate * (5 / 1000))

/-- Lines 33–39: the fade envelope for sample index `i`, given the total
sample count `numS`.  The fade-in branch (`i < fade_samples`) takes
precedence over the fade-out branch (`i > num_samples - fade_samples`)
because the source uses `elif`; otherwise the envelope is `1.0`. -/
def envelope (sampleRate : ℚ) (numS : ℤ) (i : ℕ) : ℚ :=
  let fs := fadeSamples sampleRate
  if (i : ℤ) < fs then (i : ℚ) / (fs : ℚ)
  else if (i : ℤ) > numS - fs then ((numS : ℚ) - (i : ℚ)) / (fs : ℚ)
  else 1

/-- Lines 29–44: the `i`-th PCM value.  `t = i / sample_rate`,
`sample = amplitude * sin(2π · frequency · t)`, then `sample *= envelope`,
then `pcm_value = int(sample * 32767)`. -/
def pcmSample (osc : ℚ → ℚ) (frequency sampleRate amplitude : ℚ)
    (numS : ℤ) (i : ℕ) : ℤ :=
  truncTowardZero
    (amplitude * osc (frequency * ((i : ℚ) / sampleRate))
      * envelope sampleRate numS i * 32767)

/-- Lines 24–47, at the level of 16-bit samples: the ordered sample buffer
(`range(num_samples)` is empty when `num_samples ≤ 0`). -/
def sineSamples (osc : ℚ → ℚ) (frequency duration sampleRate amplitude : ℚ) :
    List ℤ :=
  (List.range (numSamples sampleRate duration).toNat).map
    (pcmSample osc frequency sampleRate amplitude
      (numSamples sampleRate duration))

/-- Line 45: `struct.pack('<h', v)` — the two's-complement 16-bit value,
little-endian: low byte first. -/
def int16leBytes (v : ℤ) : List ℕ :=
  [(v % 65536).toNat % 256, (v % 65536).toNat / 256]

/-- Lines 45–47: packing each sample and joining the packed pairs,
as `b''.join(samples)` does. -/
def bytesOfSamples (samples : List ℤ) : List ℕ :=
  (samples.map int16leBytes).flatten

/-- Lines 11–47: `generate_sine_wave(frequency, duration, sample_rate,
amplitude)` — the returned PCM byte string. -/
def generate_sine_wave (osc : ℚ → ℚ)
    (frequency duration sampleRate amplitude : ℚ) : List ℕ :=
  bytesOfSamples (sineSamples osc frequency duration sampleRate amplitude)

/-- Modelled from the spec: the Python standard `wave` module writer is not
part of this repository, so the container layout follows §4.2 of the spec —
a 44-byte RIFF/WAVE header (format tag, channel count, sample rate, byte
rate = rate × channels × width, block align = channels × width, bits per
sample = width × 8, and the data-chunk length) followed by the raw
little-endian sample bytes.  All multi-byte header fields are
little-endian. -/
def writeWavBytes (channels sampWidth sampleRate : ℕ) (data : List ℕ) :
    List ℕ :=
  let dataLen := data.length
  let byteRate := sampleRate * channels * sampWidth
  let blockAlign := channels * sampWidth
  let bits := sampWidth * 8
  let riffSize := 36 + dataLen
  [82, 73, 70, 70,
   riffSize % 256, riffSize / 256 % 256,
   riffSize / 65536 % 256, riffSize / 16777216 % 256,
   87, 65, 86, 69,
   102, 109, 116, 32,
   16, 0, 0, 0,
   1, 0,
   channels % 256, channels / 256 % 256,
   sampleRate % 256, sampleRate / 256 % 256,
   sampleRate / 65536 % 256, sampleRate / 16777216 % 256,
   byteRate % 256, byteRate / 256 % 256,
   byteRate / 65536 % 256, byteRate / 16777216 % 256,
   blockAlign % 256, blockAlign / 256 % 256,
   bits % 256, bits / 256 % 256,
   100, 97, 116, 97,
   dataLen % 256, dataLen / 256 % 256,
   dataLen / 65536 % 256, dataLen / 16777216 % 256] ++ data

/-- The data-chunk length a WAV byte stream declares: the little-endian
32-bit field at byte offset 40. -/
def declaredDataLen (f : List ℕ) : ℕ :=
  match f.drop 40 with
  | b0 :: b1 :: b2 :: b3 :: _ => b0 + 256 * b1 + 65536 * b2 + 16777216 * b3
  | _ => 0

/-- Modelled from the spec: a standard WAV reader (the round-trip partner
of §8) — it recovers the channel count (offset 22), the sample rate
(offset 24) and the `declaredDataLen`-many data bytes from offset 44. -/
def parseWav (f : List ℕ) : ℕ × ℕ × List ℕ :=
  let channels :=
    match f.drop 22 with
    | b0 :: b1 :: _ => b0 + 256 * b1
    | _ => 0
  let rate :=
    match f.drop 24 with
    | b0 :: b1 :: b2 :: b3 :: _ => b0 + 256 * b1 + 65536 * b2 + 16777216 * b3
    | _ => 0
  (channels, rate, (f.drop 44).take (declaredDataLen f))

/-- Lines 49–68: `create_wav_file` — generate the audio with the default
amplitude `0.5`, then write a mono (1 channel), 16-bit (2 byte) WAV at the
given rate. -/
def create_wav_file (osc : ℚ → ℚ) (frequency duration : ℚ)
    (sampleRate : ℕ) : List ℕ :=
  writeWavBytes 1 2 sampleRate
    (generate_sine_wave osc frequency duration (sampleRate : ℚ) (1 / 2))

/-! ## Basic facts -/

theorem sineSamples_length (osc : ℚ → ℚ) (f d sr a : ℚ) :
    (sineSamples osc f d sr a).length = (numSamples sr d).toNat := by
  simp [sineSamples]

theorem truncTowardZero_of_nonneg {q : ℚ} (h : 0 ≤ q) :
    truncTowardZero q = ⌊q⌋ := by
  simp [truncTowardZero, h]

theorem truncTowardZero_of_neg {q : ℚ} (h : q < 0) :
    truncTowardZero q = -⌊-q⌋ := by
  rw [truncTowardZero, if_neg (not_le.mpr h), ← neg_neg ⌈q⌉, ← Int.floor_neg]

-- sanity checks on concrete values
example : truncTowardZero (3 / 2) = 1 := by
  rw [truncTowardZero_of_nonneg (by norm_num)]; norm_num
example : truncTowardZero (-(3 / 2)) = -1 := by
  rw [truncTowardZero_of_neg (by norm_num)]; norm_num
example : numSamples 44100 (1 / 20) = 2205 := by
  rw [numSamples, truncTowardZero_of_nonneg (by norm_num)]; norm_num
example : fadeSamples 44100 = 220 := by
  rw [fadeSamples, truncTowardZero_of_nonneg (by norm_num)]; norm_num
example : fadeSamples (-2) = 0 := by
  rw [fadeSamples, truncTowardZero_of_neg (by norm_num)]; norm_num
example : numSamples (-2) (-1) = 2 := by
  rw [numSamples, truncTowardZero_of_nonneg (by norm_num)]; norm_num
example : envelope 2000 12 5 = 1 / 2 := by
  have hfs : fadeSamples 2000 = 10 := by
    rw [fadeSamples, truncTowardZero_of_nonneg (by norm_num)]; norm_num
  rw [envelope]
  simp only [hfs]
  norm_num
example : (sineSamples (fun _ => 0) 1 (3 / 4) 2 (1 / 2)).length = 1 := by
  have : numSamples 2 (3 / 4) = 1 := by
    rw [numSamples, truncTowardZero_of_nonneg (by norm_num)]; norm_num
  rw [sineSamples_length, this]
  rfl

theorem int16leBytes_length (v : ℤ) : (int16leBytes v).length = 2 := rfl

theorem bytesOfSamples_length (samples : List ℤ) :
    (bytesOfSamples samples).length = 2 * samples.length := by
  induction samples with
  | nil => rfl
  | cons v s ih =>
    simp only [bytesOfSamples, List.map_cons, List.flatten_cons,
      List.length_append, List.length_cons] at *
    rw [int16leBytes_length, ih]
    omega

theorem generate_sine_wave_length (osc : ℚ → ℚ) (f d sr a : ℚ) :
    (generate_sine_wave osc f d sr a).length =
      2 * (numSamples sr d).toNat := by
  rw [generate_sine_wave, bytesOfSamples_length, sineSamples_length]

theorem truncTowardZero_nonpos {q : ℚ} (h : q ≤ 0) : truncTowardZero q ≤ 0 := by
  rw [truncTowardZero]
  split
  · calc ⌊q⌋ ≤ ⌊(0 : ℚ)⌋ := Int.floor_le_floor h
    _ = 0 := by simp
  · exact Int.ceil_le.mpr (by exact_mod_cast h)

/-- For positive rate and duration the buffer length is the floor of their
product (the truncation `int(sample_rate * duration)` of line 24). -/
theorem sineSamples_length_of_pos (osc : ℚ → ℚ) (f d sr a : ℚ)
    (hsr : 0 < sr) (hd : 0 < d) :
    ((sineSamples osc f d sr a).length : ℤ) = ⌊sr * d⌋ := by
  have hprod : (0 : ℚ) ≤ sr * d := le_of_lt (mul_pos hsr hd)
  rw [sineSamples_length, numSamples, truncTowardZero_of_nonneg hprod,
    Int.toNat_of_nonneg (Int.floor_nonneg.mpr hprod)]

/-! ## Claim C3 -/

/-- Claim C3 is refuted as stated: at sample_rate 2 and duration 3/4 the
buffer has `int(2 * 3/4) = 1` sample, while `round(2 * 3/4) = 2`. -/
theorem C3_counterexample :
    ((sineSamples (fun _ => 0) 1 (3 / 4) 2 (1 / 2)).length : ℤ) ≠
      round ((2 : ℚ) * (3 / 4)) := by
  have h1 : numSamples 2 (3 / 4) = 1 := by
    rw [numSamples, truncTowardZero_of_nonneg (by norm_num)]; norm_num
  rw [sineSamples_length, h1, round_eq]
  norm_num

/-- Claim C3 (corrected): for every valid input the number of samples
equals the floor of `sample_rate * duration` — the source truncates with
`int(...)` rather than rounding. -/
theorem C3_length_floor (osc : ℚ → ℚ) (f d sr a : ℚ)
    (hsr : 0 < sr) (hd : 0 < d) :
    ((sineSamples osc f d sr a).length : ℤ) = ⌊sr * d⌋ :=
  sineSamples_length_of_pos osc f d sr a hsr hd

/-- Witness for C3: the corrected statement at the click-tone parameters
(1000 Hz, 0.05 s, 44100 Hz, amplitude 0.5), where the length is 2205. -/
theorem C3_length_floor_witness :
    (0 : ℚ) < 44100 ∧ (0 : ℚ) < 1 / 20 ∧
      ((sineSamples (fun _ => 0) 1000 (1 / 20) 44100 (1 / 2)).length : ℤ) =
        ⌊(44100 : ℚ) * (1 / 20)⌋ :=
  ⟨by norm_num, by norm_num,
    C3_length_floor (fun _ => 0) 1000 (1 / 20) 44100 (1 / 2)
      (by norm_num) (by norm_num)⟩

/-! ## Claim C8 -/

/-- Claim C8 is refuted as stated: the source performs no validation, so
an invalid negative frequency (−5 Hz) still yields an ordinary buffer of
`int(4 * 1) = 4` samples instead of an InvalidParameter failure. -/
theorem C8_counterexample :
    ((-5 : ℚ) < 0) ∧
      (sineSamples (fun _ => 0) (-5) 1 4 (1 / 2)).length = 4 := by
  constructor
  · norm_num
  · have h1 : numSamples 4 1 = 4 := by
      rw [numSamples, truncTowardZero_of_nonneg (by norm_num)]; norm_num
    rw [sineSamples_length, h1]
    rfl

/-- Claim C8 (corrected): the reference rejects nothing — with positive
rate and duration, an invalid frequency or out-of-range amplitude still
produces the ordinary `⌊sr * d⌋`-sample buffer (the invalidity hypothesis
is never consulted; there is no error path). -/
theorem C8_no_validation (osc : ℚ → ℚ) (f d sr a : ℚ)
    (_hinvalid : f ≤ 0 ∨ a < 0 ∨ 1 < a) (hsr : 0 < sr) (hd : 0 < d) :
    ((sineSamples osc f d sr a).length : ℤ) = ⌊sr * d⌋ :=
  sineSamples_length_of_pos osc f d sr a hsr hd

/-- Witness for C8: frequency −5 is invalid, yet a 4-sample buffer comes
back. -/
theorem C8_no_validation_witness :
    ((-5 : ℚ) ≤ 0 ∨ (1 / 2 : ℚ) < 0 ∨ (1 : ℚ) < 1 / 2) ∧ (0 : ℚ) < 4 ∧
      (0 : ℚ) < 1 ∧
      ((sineSamples (fun _ => 0) (-5) 1 4 (1 / 2)).length : ℤ) =
        ⌊(4 : ℚ) * 1⌋ :=
  ⟨Or.inl (by norm_num), by norm_num, by norm_num,
    C8_no_validation (fun _ => 0) (-5) 1 4 (1 / 2)
      (Or.inl (by norm_num)) (by norm_num) (by norm_num)⟩

/-! ## Claim C10 -/

/-- Claim C10 is refuted as stated: with duration −1 ≤ 0 and sample rate
−2, the product `(-2) * (-1)` is positive, `int` of it is 2, and
`generate_sine_wave` returns a 4-byte (2-sample) string, not the empty
one. -/
theorem C10_counterexample :
    ((-1 : ℚ) ≤ 0) ∧
      (generate_sine_wave (fun _ => 0) 1 (-1) (-2) (1 / 2)).length = 4 := by
  constructor
  · norm_num
  · have h1 : numSamples (-2) (-1) = 2 := by
      rw [numSamples, truncTowardZero_of_nonneg (by norm_num)]; norm_num
    rw [generate_sine_wave_length, h1]
    rfl

/-- Claim C10 (corrected): for duration ≤ 0 and nonnegative sample rate
(in particular every positive rate), `generate_sine_wave` returns the
empty byte string: `int(sample_rate * duration) ≤ 0`, so the loop body
never runs.  With a negative rate the product of two negatives is
positive and the buffer is nonempty. -/
theorem C10_empty_on_nonpos_duration (osc : ℚ → ℚ) (f d sr a : ℚ)
    (hd : d ≤ 0) (hsr : 0 ≤ sr) :
    generate_sine_wave osc f d sr a = [] := by
  have hprod : sr * d ≤ 0 := mul_nonpos_iff.mpr (Or.inl ⟨hsr, hd⟩)
  have hns : (numSamples sr d).toNat = 0 := by
    have := truncTowardZero_nonpos hprod
    rw [numSamples]
    omega
  have hlen : (generate_sine_wave osc f d sr a).length = 0 := by
    rw [generate_sine_wave_length, hns]
  exact List.length_eq_zero.mp hlen

/-- Witness for C10: duration −1 at sample rate 2 yields the empty byte
string. -/
theorem C10_empty_on_nonpos_duration_witness :
    ((-1 : ℚ) ≤ 0) ∧ ((0 : ℚ) ≤ 2) ∧
      generate_sine_wave (fun _ => 0) 5 (-1) 2 (1 / 2) = [] :=
  ⟨by norm_num, by norm_num,
    C10_empty_on_nonpos_duration (fun _ => 0) 5 (-1) 2 (1 / 2)
      (by norm_num) (by norm_num)⟩

/-! ## Envelope bounds -/

/-- For an index inside the buffer the fade envelope lies in `[0, 1]`. -/
theorem envelope_mem_unit (sr : ℚ) (ns : ℤ) (i : ℕ) (hi : (i : ℤ) < ns) :
    0 ≤ envelope sr ns i ∧ envelope sr ns i ≤ 1 := by
  simp only [envelope]
  split_ifs with h1 h2
  · have hfs : (0 : ℤ) < fadeSamples sr := by omega
    have hfsQ : (0 : ℚ) < (fadeSamples sr : ℚ) := by exact_mod_cast hfs
    refine ⟨div_nonneg (by positivity) hfsQ.le, ?_⟩
    rw [div_le_one hfsQ]
    exact_mod_cast le_of_lt h1
  · have hfs : (0 : ℤ) < fadeSamples sr := by omega
    have hfsQ : (0 : ℚ) < (fadeSamples sr : ℚ) := by exact_mod_cast hfs
    have hnum : (0 : ℚ) ≤ (ns : ℚ) - (i : ℚ) := by
      have : (0 : ℤ) ≤ ns - i := by omega
      exact_mod_cast this
    refine ⟨div_nonneg hnum hfsQ.le, ?_⟩
    rw [div_le_one hfsQ]
    have : ns - (i : ℤ) ≤ fadeSamples sr := by omega
    exact_mod_cast this
  · exact ⟨zero_le_one, le_refl 1⟩

/-- Truncation toward zero never enlarges the absolute value beyond a
natural bound on the argument. -/
theorem truncTowardZero_abs_le {q : ℚ} {n : ℕ} (h : |q| ≤ (n : ℚ)) :
    -(n : ℤ) ≤ truncTowardZero q ∧ truncTowardZero q ≤ (n : ℤ) := by
  rw [abs_le] at h
  rw [truncTowardZero]
  split_ifs with h0
  · have hl : (0 : ℤ) ≤ ⌊q⌋ := Int.floor_nonneg.mpr h0
    have hr : ⌊q⌋ ≤ (n : ℤ) := by
      calc ⌊q⌋ ≤ ⌊(n : ℚ)⌋ := Int.floor_le_floor h.2
        _ = (n : ℤ) := Int.floor_natCast n
    exact ⟨by omega, hr⟩
  · have hq : q < 0 := not_le.mp h0
    have hr : ⌈q⌉ ≤ 0 := Int.ceil_le.mpr (by exact_mod_cast hq.le)
    have hl : -(n : ℤ) ≤ ⌈q⌉ := by
      have hcast : ((-(n : ℤ) : ℤ) : ℚ) ≤ q := by push_cast; linarith [h.1]
      have hmono := Int.ceil_le_ceil hcast
      rw [Int.ceil_intCast] at hmono
      exact hmono
    exact ⟨hl, by omega⟩

/-! ## Claim C1 -/

/-- Claim C1: for every valid input and every in-range index `i`, the
`i`-th emitted sample is the truncation toward zero of
envelope × amplitude × osc(frequency·i/sample_rate) × 32767, where `osc`
stands for `x ↦ sin(2πx)`; indexing by `i` is generation (time) order. -/
theorem C1_sample_formula (osc : ℚ → ℚ) (f d sr a : ℚ)
    (_hf : 0 < f) (_hd : 0 < d) (_hsr : 0 < sr) (_ha0 : 0 ≤ a)
    (_ha1 : a ≤ 1) (i : ℕ) (hi : i < (numSamples sr d).toNat) :
    (sineSamples osc f d sr a)[i]? =
      some (truncTowardZero
        (envelope sr (numSamples sr d) i * a * osc (f * (i : ℚ) / sr)
          * 32767)) := by
  rw [sineSamples, List.getElem?_map, List.getElem?_range hi,
    Option.map_some']
  rw [pcmSample, show f * ((i : ℚ) / sr) = f * (i : ℚ) / sr from by ring]
  exact congrArg some (congrArg truncTowardZero (by ring))

/-- Witness for C1: the click parameters at sample rate 4 (so that the
fade window is empty and the envelope is 1) and index 0. -/
theorem C1_sample_formula_witness :
    (0 : ℚ) < 1 ∧ (0 : ℚ) < 1 ∧ (0 : ℚ) < 4 ∧ (0 : ℚ) ≤ 1 ∧ (1 : ℚ) ≤ 1 ∧
      0 < (numSamples 4 1).toNat ∧
      (sineSamples (fun _ => 1) 1 1 4 1)[0]? =
        some (truncTowardZero
          (envelope 4 (numSamples 4 1) 0 * 1 * (1 : ℚ) * 32767)) := by
  have h4 : numSamples 4 1 = 4 := by
    rw [numSamples, truncTowardZero_of_nonneg (by norm_num)]; norm_num
  refine ⟨by norm_num, by norm_num, by norm_num, by norm_num, by norm_num,
    by rw [h4]; norm_num, ?_⟩
  exact C1_sample_formula (fun _ => 1) 1 1 4 1 (by norm_num) (by norm_num)
    (by norm_num) (by norm_num) (by norm_num) 0 (by rw [h4]; norm_num)

/-! ## Claim C2 -/

/-- Claim C2 is refuted as stated: at sample rate 2000 and duration 3/500
(12 samples, fade window 10) the index 5 satisfies the claimed fade-out
condition `i > num_samples - fade_samples`, yet its envelope is the
fade-in value 5/10, not the claimed `(12 - 5)/10` — the source's `elif`
gives the fade-in branch precedence. -/
theorem C2_counterexample :
    numSamples 2000 (3 / 500) - fadeSamples 2000 < (5 : ℤ) ∧
      (5 : ℤ) < numSamples 2000 (3 / 500) ∧
      envelope 2000 (numSamples 2000 (3 / 500)) 5 ≠
        ((numSamples 2000 (3 / 500) : ℚ) - 5) / (fadeSamples 2000 : ℚ) := by
  have hns : numSamples 2000 (3 / 500) = 12 := by
    rw [numSamples, truncTowardZero_of_nonneg (by norm_num)]; norm_num
  have hfs : fadeSamples 2000 = 10 := by
    rw [fadeSamples, truncTowardZero_of_nonneg (by norm_num)]; norm_num
  refine ⟨by rw [hns, hfs]; norm_num, by rw [hns]; norm_num, ?_⟩
  rw [hns, envelope]
  simp only [hfs]
  norm_num

/-- Claim C2 (amended): indices below `fade_samples` get the fade-in
factor `i / fade_samples` (this branch wins even where the fade-out
condition also holds); indices at or above `fade_samples` that satisfy
`i > num_samples - fade_samples` get the fade-out factor
`(num_samples - i) / fade_samples`; all other indices — including the one
exactly at `num_samples - fade_samples` — get factor 1. -/
theorem C2_fade_regions (sr d : ℚ) (i : ℕ) :
    ((i : ℤ) < fadeSamples sr →
      envelope sr (numSamples sr d) i = (i : ℚ) / (fadeSamples sr : ℚ)) ∧
    (fadeSamples sr ≤ (i : ℤ) →
      numSamples sr d - fadeSamples sr < (i : ℤ) →
      envelope sr (numSamples sr d) i =
        ((numSamples sr d : ℚ) - (i : ℚ)) / (fadeSamples sr : ℚ)) ∧
    (fadeSamples sr ≤ (i : ℤ) →
      (i : ℤ) ≤ numSamples sr d - fadeSamples sr →
      envelope sr (numSamples sr d) i = 1) := by
  simp only [envelope]
  refine ⟨fun h => ?_, fun h1 h2 => ?_, fun h1 h2 => ?_⟩
  · rw [if_pos h]
  · rw [if_neg (by omega), if_pos (by omega)]
  · rw [if_neg (by omega), if_neg (by omega)]

/-- Witness for C2 (amended): at sample rate 2000 and duration 1
(2000 samples, fade window 10), index 1995 is in the fade-out region. -/
theorem C2_fade_regions_witness :
    fadeSamples 2000 ≤ (1995 : ℤ) ∧
      numSamples 2000 1 - fadeSamples 2000 < (1995 : ℤ) ∧
      envelope 2000 (numSamples 2000 1) 1995 =
        ((numSamples 2000 1 : ℚ) - 1995) / (fadeSamples 2000 : ℚ) := by
  have hns : numSamples 2000 1 = 2000 := by
    rw [numSamples, truncTowardZero_of_nonneg (by norm_num)]; norm_num
  have hfs : fadeSamples 2000 = 10 := by
    rw [fadeSamples, truncTowardZero_of_nonneg (by norm_num)]; norm_num
  refine ⟨by rw [hfs]; norm_num, by rw [hns, hfs]; norm_num, ?_⟩
  exact (C2_fade_regions 2000 1 1995).2.1
    (by rw [hfs]; norm_num) (by rw [hns, hfs]; norm_num)

/-! ## Claim C4 -/

/-- Claim C4 is refuted as stated: at sample rate 2000 and duration 3/400
the buffer has 15 samples, fewer than twice the fade window of 10, yet
sample 12 — a valid index outside the fade-in region — receives the
fade-out factor `(15 - 12)/10 ≠ 1`, so fade-out is applied. -/
theorem C4_counterexample :
    numSamples 2000 (3 / 400) < 2 * fadeSamples 2000 ∧
      ¬((12 : ℤ) < fadeSamples 2000) ∧
      (12 : ℤ) < numSamples 2000 (3 / 400) ∧
      envelope 2000 (numSamples 2000 (3 / 400)) 12 =
        ((numSamples 2000 (3 / 400) : ℚ) - 12) / (fadeSamples 2000 : ℚ) ∧
      envelope 2000 (numSamples 2000 (3 / 400)) 12 ≠ 1 := by
  have hns : numSamples 2000 (3 / 400) = 15 := by
    rw [numSamples, truncTowardZero_of_nonneg (by norm_num)]; norm_num
  have hfs : fadeSamples 2000 = 10 := by
    rw [fadeSamples, truncTowardZero_of_nonneg (by norm_num)]; norm_num
  refine ⟨by rw [hns, hfs]; norm_num, by rw [hfs]; norm_num,
    by rw [hns]; norm_num, ?_, ?_⟩
  · rw [hns, envelope]
    simp only [hfs]
    norm_num
  · rw [hns, envelope]
    simp only [hfs]
    norm_num

/-- Claim C4 (amended): when `num_samples < 2 * fade_samples` each sample
still gets exactly one multiplier — indices below `fade_samples` get only
the fade-in factor (fade-out is skipped there even though its condition
holds), the remaining valid indices get the fade-out factor — and only
when `num_samples ≤ fade_samples` (tones of at most 5 ms) is fade-out
never applied to any sample. -/
theorem C4_short_tone (sr d : ℚ)
    (hshort : numSamples sr d < 2 * fadeSamples sr) :
    (∀ i : ℕ, (i : ℤ) < fadeSamples sr →
      envelope sr (numSamples sr d) i = (i : ℚ) / (fadeSamples sr : ℚ)) ∧
    (∀ i : ℕ, fadeSamples sr ≤ (i : ℤ) → (i : ℤ) < numSamples sr d →
      envelope sr (numSamples sr d) i =
        ((numSamples sr d : ℚ) - (i : ℚ)) / (fadeSamples sr : ℚ)) ∧
    (numSamples sr d ≤ fadeSamples sr →
      ∀ i : ℕ, (i : ℤ) < numSamples sr d →
      envelope sr (numSamples sr d) i = (i : ℚ) / (fadeSamples sr : ℚ)) := by
  simp only [envelope]
  refine ⟨fun i h => ?_, fun i h1 h2 => ?_, fun hle i h => ?_⟩
  · rw [if_pos h]
  · rw [if_neg (by omega), if_pos (by omega)]
  · rw [if_pos (by omega)]

/-- Witness for C4 (amended): sample rate 2000 and duration 1/500 give a
4-sample tone entirely inside the 10-sample fade window; sample 2 gets
the fade-in factor 2/10 and no fade-out. -/
theorem C4_short_tone_witness :
    numSamples 2000 (1 / 500) < 2 * fadeSamples 2000 ∧
      numSamples 2000 (1 / 500) ≤ fadeSamples 2000 ∧
      (2 : ℤ) < numSamples 2000 (1 / 500) ∧
      envelope 2000 (numSamples 2000 (1 / 500)) 2 =
        (2 : ℚ) / (fadeSamples 2000 : ℚ) := by
  have hns : numSamples 2000 (1 / 500) = 4 := by
    rw [numSamples, truncTowardZero_of_nonneg (by norm_num)]; norm_num
  have hfs : fadeSamples 2000 = 10 := by
    rw [fadeSamples, truncTowardZero_of_nonneg (by norm_num)]; norm_num
  refine ⟨by rw [hns, hfs]; norm_num, by rw [hns, hfs]; norm_num,
    by rw [hns]; norm_num, ?_⟩
  exact (C4_short_tone 2000 (1 / 500)
      (by rw [hns, hfs]; norm_num)).2.2
    (by rw [hns, hfs]; norm_num) 2 (by rw [hns]; norm_num)

/-! ## Claim C5 -/

/-- Claim C5: with a bounded oscillator (`|sin| ≤ 1`) and amplitude in
`[0, 1]`, every emitted PCM value lies in `[-32768, 32767]` (indeed in
`[-32767, 32767]`), so packing as a signed 16-bit little-endian value
never overflows and the pack error branch is unreachable. -/
theorem C5_sample_range (osc : ℚ → ℚ) (f d sr a : ℚ)
    (hosc : ∀ q, |osc q| ≤ 1) (ha0 : 0 ≤ a) (ha1 : a ≤ 1) :
    ∀ x ∈ sineSamples osc f d sr a, -32768 ≤ x ∧ x ≤ 32767 := by
  intro x hx
  rw [sineSamples, List.mem_map] at hx
  obtain ⟨i, hir, rfl⟩ := hx
  rw [List.mem_range] at hir
  have hins : (i : ℤ) < numSamples sr d := by omega
  obtain ⟨he0, he1⟩ := envelope_mem_unit sr (numSamples sr d) i hins
  rw [pcmSample]
  have hsamp : |a * osc (f * ((i : ℚ) / sr))| ≤ 1 := by
    rw [abs_mul]
    have ha : |a| ≤ 1 := by rw [abs_of_nonneg ha0]; exact ha1
    exact mul_le_one₀ ha (abs_nonneg _) (hosc _)
  have henv : |envelope sr (numSamples sr d) i| ≤ 1 := by
    rw [abs_of_nonneg he0]; exact he1
  have hbound :
      |a * osc (f * ((i : ℚ) / sr)) * envelope sr (numSamples sr d) i
        * 32767| ≤ ((32767 : ℕ) : ℚ) := by
    rw [abs_mul, abs_mul]
    have h32 : |(32767 : ℚ)| = 32767 := by norm_num
    rw [h32]
    calc |a * osc (f * ((i : ℚ) / sr))| * |envelope sr (numSamples sr d) i|
          * 32767
        ≤ 1 * 1 * 32767 := by
          apply mul_le_mul_of_nonneg_right _ (by norm_num)
          exact mul_le_mul hsamp henv (abs_nonneg _) zero_le_one
      _ = ((32767 : ℕ) : ℚ) := by norm_num
  obtain ⟨hl, hr⟩ := truncTowardZero_abs_le hbound
  constructor
  · omega
  · omega

/-- Witness for C5: the zero oscillator at concrete valid parameters; the
sample at index 0 is 0, inside the 16-bit range. -/
theorem C5_sample_range_witness :
    ((0 : ℚ) ≤ 1 / 2) ∧ ((1 / 2 : ℚ) ≤ 1) ∧
      (-32768 ≤ (0 : ℤ) ∧ (0 : ℤ) ≤ 32767) := by
  have h4 : numSamples 4 1 = 4 := by
    rw [numSamples, truncTowardZero_of_nonneg (by norm_num)]; norm_num
  have hmem : (0 : ℤ) ∈ sineSamples (fun _ => 0) 1 1 4 (1 / 2) := by
    rw [sineSamples, h4, List.mem_map]
    refine ⟨0, by norm_num, ?_⟩
    rw [pcmSample]
    simp only [mul_zero, zero_mul]
    rw [truncTowardZero_of_nonneg le_rfl]
    norm_num
  refine ⟨by norm_num, by norm_num, ?_⟩
  exact C5_sample_range (fun _ => 0) 1 1 4 (1 / 2)
    (fun q => by norm_num) (by norm_num) (by norm_num) 0 hmem

/-! ## Container header facts -/

/-- The data-chunk length field of a written container holds the payload
length (as long as it fits the 32-bit field). -/
theorem declaredDataLen_writeWavBytes (ch sw sr : ℕ) (data : List ℕ)
    (h : data.length < 4294967296) :
    declaredDataLen (writeWavBytes ch sw sr data) = data.length := by
  have hdig : declaredDataLen (writeWavBytes ch sw sr data) =
      data.length % 256 + 256 * (data.length / 256 % 256)
        + 65536 * (data.length / 65536 % 256)
        + 16777216 * (data.length / 16777216 % 256) := rfl
  rw [hdig]
  omega

/-! ## Claim C6 -/

/-- Claim C6: the declared data length of a written container is exactly
`num_samples × sample_width × channels` (here width 2, channels 1); in
particular the click parameters (1000 Hz, 0.05 s, 44100 Hz, amplitude
0.5) give 2205 samples and a declared data length of 4410 bytes. -/
theorem C6_data_length (osc : ℚ → ℚ) (sr : ℕ) (samples : List ℤ)
    (h : 2 * samples.length < 4294967296) :
    declaredDataLen (writeWavBytes 1 2 sr (bytesOfSamples samples)) =
        samples.length * 2 * 1 ∧
      (sineSamples osc 1000 (1 / 20) 44100 (1 / 2)).length = 2205 ∧
      declaredDataLen (create_wav_file osc 1000 (1 / 20) 44100) = 4410 := by
  have hns : numSamples 44100 (1 / 20) = 2205 := by
    rw [numSamples, truncTowardZero_of_nonneg (by norm_num)]; norm_num
  have hcast : ((44100 : ℕ) : ℚ) = 44100 := by norm_num
  have hlen : (sineSamples osc 1000 (1 / 20) 44100 (1 / 2)).length = 2205 := by
    rw [sineSamples_length, hns]; rfl
  refine ⟨?_, hlen, ?_⟩
  · rw [declaredDataLen_writeWavBytes 1 2 sr (bytesOfSamples samples)
      (by rw [bytesOfSamples_length]; omega), bytesOfSamples_length]
    ring
  · rw [create_wav_file, generate_sine_wave]
    rw [declaredDataLen_writeWavBytes 1 2 44100 _
      (by rw [bytesOfSamples_length, hcast, sineSamples_length, hns]; omega)]
    rw [bytesOfSamples_length, hcast, hlen]

/-- Witness for C6 at the 2-sample buffer `[1, -1]`. -/
theorem C6_data_length_witness :
    2 * [(1 : ℤ), -1].length < 4294967296 ∧
      (declaredDataLen (writeWavBytes 1 2 44100 (bytesOfSamples [(1 : ℤ), -1]))
          = [(1 : ℤ), -1].length * 2 * 1 ∧
        (sineSamples (fun _ => 0) 1000 (1 / 20) 44100 (1 / 2)).length = 2205 ∧
        declaredDataLen (create_wav_file (fun _ => 0) 1000 (1 / 20) 44100)
          = 4410) :=
  ⟨by norm_num, C6_data_length (fun _ => 0) 44100 [(1 : ℤ), -1] (by norm_num)⟩

/-! ## Claim C7 -/

/-- Claim C7: parsing a written container with a standard reader recovers
the channel count, the sample rate and the exact sample bytes, whenever
each fits its header field. -/
theorem C7_roundtrip (ch sw sr : ℕ) (data : List ℕ)
    (hch : ch < 65536) (hsr : sr < 4294967296)
    (hdata : data.length < 4294967296) :
    parseWav (writeWavBytes ch sw sr data) = (ch, sr, data) := by
  have h1 : parseWav (writeWavBytes ch sw sr data) =
      (ch % 256 + 256 * (ch / 256 % 256),
       sr % 256 + 256 * (sr / 256 % 256) + 65536 * (sr / 65536 % 256)
         + 16777216 * (sr / 16777216 % 256),
       data.take (declaredDataLen (writeWavBytes ch sw sr data))) := rfl
  rw [h1, declaredDataLen_writeWavBytes ch sw sr data hdata,
    List.take_length]
  simp only [Prod.mk.injEq]
  exact ⟨by omega, by omega, trivial⟩

/-- Witness for C7: a mono 44100 Hz container around the 3-byte payload
`[7, 8, 255]` parses back to its inputs. -/
theorem C7_roundtrip_witness :
    (1 : ℕ) < 65536 ∧ (44100 : ℕ) < 4294967296 ∧
      ([7, 8, 255] : List ℕ).length < 4294967296 ∧
      parseWav (writeWavBytes 1 2 44100 [7, 8, 255]) = (1, 44100, [7, 8, 255]) :=
  ⟨by norm_num, by norm_num, by norm_num,
    C7_roundtrip 1 2 44100 [7, 8, 255] (by norm_num) (by norm_num)
      (by norm_num)⟩

/-! ## Claim C9 -/

/-- Claim C9: synthesizer and writer are pure functions of their
parameters — the embedding has no hidden state, randomness or I/O
dependence — so two runs on the same parameters produce identical sample
buffers, identical PCM byte strings and identical container bytes. -/
theorem C9_deterministic (osc : ℚ → ℚ) (f d sr a : ℚ) (ch sw r srN : ℕ)
    (data : List ℕ) :
    sineSamples osc f d sr a = sineSamples osc f d sr a ∧
      generate_sine_wave osc f d sr a = generate_sine_wave osc f d sr a ∧
      writeWavBytes ch sw r data = writeWavBytes ch sw r data ∧
      create_wav_file osc f d srN = create_wav_file osc f d srN :=
  ⟨rfl, rfl, rfl, rfl⟩

end Metronome
